import Mathlib

/-
Verification development for the krwl event curation pipeline.

The Python sources are shallowly embedded in Lean:
  * Python strings are lists of characters (PyStr); str.lower, str.split,
    substring containment (the Python `in` operator) and friends are modelled
    as the corresponding list functions.
  * Python floats are modelled as exact rationals; float literals such as
    0.6 / 0.3 / 0.1 / 0.15 become the rationals 6/10, 3/10, 1/10, 3/20.
  * File-backed stores become explicit values threaded through the functions;
    a function that loads, mutates and saves a JSON file becomes a function
    from the old store value to the new one.
  * Python exceptions become Except values; an uncaught exception is an
    Except.error that propagates to the caller.
-/

namespace Krwl

/-! ## Python string primitives -/

abbrev PyStr := List Char

/-- Python str.lower (ASCII model). -/
def pyLower (s : PyStr) : PyStr := s.map Char.toLower

/-- Python str.split() with no argument: split on whitespace runs,
dropping empty pieces. -/
def pySplitWs (s : PyStr) : List PyStr :=
  (List.splitOnP Char.isWhitespace s).filter (fun w => w ≠ [])

/-- Python substring containment: the expression x in y for strings. -/
def pyIn (x y : PyStr) : Bool := decide (x <:+: y)

/-! ## Identity generator (spec section 4.1)

vhs.py imports generate_stable_event_id from date_utils, a module that is
not among the sources; only its call site is.  The definitions below are
therefore modelled from the spec. -/

/-- Modelled from the spec: title normalization used by the identity
generator (lowercase, strip punctuation, collapse whitespace).  Punctuation
is modelled as every character that is neither alphanumeric nor whitespace.
The function generate_stable_event_id lives in the date_utils module which
is missing from the sources. -/
def normalize_title (t : PyStr) : PyStr :=
  List.intercalate [' ']
    (pySplitWs ((pyLower t).filter (fun c => c.isAlphanum || c.isWhitespace)))

/-- Calendar date-time as produced by the scraping adapters. -/
structure PyDate where
  year : Nat
  month : Nat
  day : Nat
  hour : Nat
  minute : Nat
deriving DecidableEq

/-- Modelled from the spec: the one fatal identity-generation condition,
an empty or missing title. -/
inductive IdentityError
  | emptyTitle
deriving DecidableEq

/-- Modelled from the spec: a stable event id combines the source namespace,
the normalized title and the date-only component (none marks the
deterministic unscheduled bucket).  The spec guarantees that materially
different normalized inputs give different ids with negligible collision
probability, so the hash is modelled as the injective key itself. -/
structure StableEventId where
  source : PyStr
  titleKey : PyStr
  dateKey : Option (Nat × Nat × Nat)
deriving DecidableEq

/-- Modelled from the spec: generate(source, title, start_date) -> id.
Empty title fails with an IdentityError; a missing start date falls back to
the deterministic unscheduled bucket; the time of day is excluded. -/
def generate_stable_event_id (source : PyStr) (title : PyStr) (start : Option PyDate) :
    Except IdentityError StableEventId :=
  if title = [] then .error .emptyTitle
  else .ok ⟨source, normalize_title title, start.map (fun d => (d.year, d.month, d.day))⟩

/-! ## Source dedup cache (source_cache.py)

The dataclass fields cache_path / max_entries / processed_keys; the
cache_path is only used for disk access and is dropped from the state. -/

structure SourceCache where
  max_entries : Nat
  processed_keys : List PyStr
deriving DecidableEq

/-- Python list slicing xs[-m:].  For m = 0 Python reads xs[-0:] = xs[0:],
the whole list; for m > 0 it is the last m elements. -/
def pySliceLast (xs : List PyStr) (m : Nat) : List PyStr :=
  if m = 0 then xs else xs.drop (xs.length - m)

/-- SourceCache.is_processed: membership in processed_keys. -/
def SourceCache.is_processed (c : SourceCache) (k : PyStr) : Bool :=
  decide (k ∈ c.processed_keys)

/-- SourceCache.mark_processed: return early if present, else append and
truncate with processed_keys[-max_entries:] when the length exceeds
max_entries. -/
def SourceCache.mark_processed (c : SourceCache) (k : PyStr) : SourceCache :=
  if k ∈ c.processed_keys then c
  else
    let ks := c.processed_keys ++ [k]
    if c.max_entries < ks.length then { c with processed_keys := pySliceLast ks c.max_entries }
    else { c with processed_keys := ks }

/-- A sequence of mark_processed calls. -/
def SourceCache.markAll (c : SourceCache) (ks : List PyStr) : SourceCache :=
  ks.foldl SourceCache.mark_processed c

/-! ## SourceCache.load and the JSON shape (source_cache.py lines 17-27) -/

/-- Parsed JSON values. -/
inductive Json where
  | null : Json
  | bool : Bool → Json
  | num : ℚ → Json
  | str : PyStr → Json
  | arr : List Json → Json
  | obj : List (PyStr × Json) → Json

/-- Python data.get(key, default): succeeds on a dict, raises
AttributeError on every other JSON value. -/
def jsonGet (j : Json) (key : PyStr) (dflt : Json) : Except Unit Json :=
  match j with
  | .obj kvs => .ok ((kvs.lookup key).getD dflt)
  | _ => .error ()

/-- SourceCache.load: the file argument is none when the cache path is unset
or the file does not exist, some (.error ()) when reading or JSON parsing
fails (json.JSONDecodeError / OSError, the two caught exception classes),
and some (.ok j) when the file parses to the JSON value j.  The result is
the new processed_keys value, or an uncaught exception. -/
def sourceCacheLoad (file : Option (Except Unit Json)) (current : Json) : Except Unit Json :=
  match file with
  | none => .ok current
  | some (.error _) => .ok current
  | some (.ok data) => jsonGet data "processed_keys".toList (.arr [])

/-! ## Event records and the similarity matcher (editor.py) -/

/-- The location object carried by an event; a missing name is the empty
string (the code reads it with .get('name', '')), missing coordinates are
none. -/
structure PyLocation where
  name : PyStr
  lat : Option ℚ
  lon : Option ℚ
deriving DecidableEq

/-- A candidate event record as handled by the editor. -/
structure Event where
  id : PyStr
  title : PyStr
  description : PyStr
  location : PyLocation
  start_time : PyStr
  source : PyStr
  status : PyStr
  published_at : Option PyStr
deriving DecidableEq

/-- Title contribution of _find_similar_events (editor.py lines 403-411):
word overlap of the lowercased titles, |intersection| / max size, weight
0.6.  Both arguments are already lowercased by the caller.  Word sets are
modelled as deduplicated word lists of the Python set. -/
def titleScore (et ht : PyStr) : ℚ :=
  if ht ≠ [] ∧ et ≠ [] then
    let ew := (pySplitWs et).dedup
    let hw := (pySplitWs ht).dedup
    if ew ≠ [] ∧ hw ≠ [] then
      (((ew.filter (fun w => decide (w ∈ hw))).length : ℚ) / (max ew.length hw.length)) * (6 / 10)
    else 0
  else 0

/-- Location-name contribution of _find_similar_events (editor.py lines
413-419): 0.3 when either lowercased name contains the other as a
substring, otherwise 0.15 when any whitespace word of the candidate name
occurs as a substring of the historical name, otherwise 0. -/
def locationScore (el hl : PyStr) : ℚ :=
  if hl ≠ [] ∧ el ≠ [] then
    if pyIn el hl || pyIn hl el then 3 / 10
    else if (pySplitWs el).any (fun w => pyIn w hl) then 3 / 20
    else 0
  else 0

/-- Geographic contribution of _find_similar_events (editor.py lines
421-431): 0.1 when all four coordinate values are truthy (present and
non-zero, the Python all([...]) test) and the distance is below 1 km.  The
distance function is a parameter standing for utils.calculate_distance;
since the model is total, the try/except around the call is vacuous. -/
def proximityScore (dist : ℚ → ℚ → ℚ → ℚ → ℚ) :
    Option ℚ → Option ℚ → Option ℚ → Option ℚ → ℚ
  | some a, some b, some c, some d =>
    if a ≠ 0 ∧ b ≠ 0 ∧ c ≠ 0 ∧ d ≠ 0 then
      if dist a b c d < 1 then 1 / 10 else 0
    else 0
  | _, _, _, _ => 0

/-- Composite similarity score of one candidate/historical pair, the sum of
the three contributions on the lowercased fields. -/
def compositeScore (dist : ℚ → ℚ → ℚ → ℚ → ℚ) (e h : Event) : ℚ :=
  titleScore (pyLower e.title) (pyLower h.title)
    + locationScore (pyLower e.location.name) (pyLower h.location.name)
    + proximityScore dist e.location.lat e.location.lon h.location.lat h.location.lon

/-- Pairing of a historical event with its similarity score. -/
structure SimilarityResult where
  event : Event
  score : ℚ
deriving DecidableEq

/-- Stable insertion of one result into a descending-sorted list: the new
element goes in front of the first element whose score is not larger, so on
ties earlier list elements stay first. -/
def insertDescByScore (x : SimilarityResult) :
    List SimilarityResult → List SimilarityResult
  | [] => [x]
  | y :: ys => if y.score ≤ x.score then x :: y :: ys else y :: insertDescByScore x ys

/-- Model of Python similar.sort(key=score, reverse=True): a stable sort by
descending score. -/
def sortDescByScore : List SimilarityResult → List SimilarityResult
  | [] => []
  | x :: xs => insertDescByScore x (sortDescByScore xs)

/-- _find_similar_events: keep the pairs whose composite score is strictly
above 0.3, sorted by descending score (stable). -/
def find_similar_events (dist : ℚ → ℚ → ℚ → ℚ → ℚ) (e : Event) (hist : List Event) :
    List SimilarityResult :=
  sortDescByScore (hist.filterMap (fun h =>
    if 3 / 10 < compositeScore dist e h then some ⟨h, compositeScore dist e h⟩ else none))

/-! ## Haversine distance (utils.py lines 45-67), over the reals -/

noncomputable def radians (x : ℝ) : ℝ := x * Real.pi / 180

/-- Python math.atan2. -/
noncomputable def atan2 (y x : ℝ) : ℝ :=
  if 0 < x then Real.arctan (y / x)
  else if x = 0 then (if 0 < y then Real.pi / 2 else if y < 0 then -(Real.pi / 2) else 0)
  else if 0 ≤ y then Real.arctan (y / x) + Real.pi
  else Real.arctan (y / x) - Real.pi

/-- calculate_distance: haversine great-circle distance in kilometres with
Earth radius 6371. -/
noncomputable def calculate_distance (lat1 lon1 lat2 lon2 : ℝ) : ℝ :=
  let R : ℝ := 6371
  let lat1r := radians lat1
  let lon1r := radians lon1
  let lat2r := radians lat2
  let lon2r := radians lon2
  let dlon := lon2r - lon1r
  let dlat := lat2r - lat1r
  let a := Real.sin (dlat / 2) ^ 2 + Real.cos lat1r * Real.cos lat2r * Real.sin (dlon / 2) ^ 2
  let c := 2 * atan2 (Real.sqrt a) (Real.sqrt (1 - a))
  R * c

/-! ## Review state machine (editor.py) -/

/-- The two file-backed stores written by an approval: the published events
list (data/events.json) and the per-event backup copies. -/
structure Stores where
  published : List Event
  backups : List Event
deriving DecidableEq

/-- Status / published_at stamping done by _approve_event on the validated
event before it is written anywhere. -/
def publishStamp (now : PyStr) (e : Event) : Event :=
  { e with status := "published".toList, published_at := some now }

/-- _approve_event (editor.py lines 272-307).  The validation function
stands for models.validate_event_data, which is imported by editor.py but
missing from the sources.  Validation runs first; on failure the original
error is re-raised and nothing is written.  On success the stamped event is
backed up and appended to the published store (the function loads and saves
events.json itself). -/
def approve_event (validate : Event → Except PyStr Event) (now : PyStr)
    (st : Stores) (e : Event) : Except PyStr (Stores × Event) :=
  match validate e with
  | .error msg => .error msg
  | .ok ve =>
      let ed := publishStamp now ve
      .ok ({ published := st.published ++ [ed], backups := st.backups ++ [ed] }, ed)

/-! ## Rejection suppression (editor.py _reject_event, utils.add_rejected_event) -/

/-- Modelled from the spec: the normalization applied to the (title, source)
suppression key of a rejection record (add_rejected_event is imported from
utils by editor.py but missing from the sources).  Modelled as lowercasing
and whitespace collapsing. -/
def normalizeKey (s : PyStr) : PyStr := List.intercalate [' '] (pySplitWs (pyLower s))

/-- A rejection record: the normalized (title, source) pair. -/
structure RejKey where
  title : PyStr
  source : PyStr
deriving DecidableEq

/-- Modelled from the spec: add_rejected_event appends the normalized
(title, source) rejection record to the rejection store. -/
def add_rejected_event (store : List RejKey) (title source : PyStr) : List RejKey :=
  store ++ [⟨normalizeKey title, normalizeKey source⟩]

/-- Modelled from the spec: the scrape-time suppression test, true when the
candidate's normalized (title, source) matches a rejection record. -/
def is_rejected (store : List RejKey) (title source : PyStr) : Bool :=
  decide ((⟨normalizeKey title, normalizeKey source⟩ : RejKey) ∈ store)

/-- Modelled from the spec: an operator explicitly clearing the rejection
record of a (title, source) pair. -/
def clear_rejected (store : List RejKey) (title source : PyStr) : List RejKey :=
  store.filter (fun r => r ≠ ⟨normalizeKey title, normalizeKey source⟩)

/-- Modelled from the spec: a scraped candidate is inserted into the pending
store only when its normalized (title, source) is not suppressed. -/
def insert_candidate (store : List RejKey) (pending : List Event) (c : Event) : List Event :=
  if is_rejected store c.title c.source then pending else pending ++ [c]

/-- _reject_event (editor.py lines 309-324): when both title and source are
truthy (non-empty) the rejection record is written; otherwise only a warning
is logged and no record is written.  Removal from the pending list is done
by the callers. -/
def reject_event (store : List RejKey) (e : Event) : List RejKey :=
  if e.title ≠ [] ∧ e.source ≠ [] then add_rejected_event store e.title e.source else store

/-! ## Interactive review loop (editor.py review_pending) -/

/-- Operator choices of the review loop that this model covers (the edit
and batch branches do not matter for the claims about the loop itself). -/
inductive ReviewChoice
  | approve | reject | skip | quit
deriving DecidableEq

/-- review_pending (editor.py lines 18-96) driven by a list of operator
choices: index i walks the pending list; approve runs _approve_event and on
success pops the event; an uncaught validation error aborts the whole loop
(there is no try/except around the approve branch, so the final
save_pending_events is skipped and the remaining items are never shown);
reject writes the suppression record and pops the event; skip advances;
quit (or an exhausted choice list, the operator walking away) ends the
loop normally.  The normal result is the stores, the rejection store and
the saved pending list. -/
def review_pending (validate : Event → Except PyStr Event) (now : PyStr) :
    Stores → List RejKey → List Event → Nat → List ReviewChoice →
    Except PyStr (Stores × List RejKey × List Event)
  | st, rej, pending, _, [] => .ok (st, rej, pending)
  | st, rej, pending, i, choice :: rest =>
    if h : i < pending.length then
      match choice with
      | .approve =>
        match approve_event validate now st (pending.get ⟨i, h⟩) with
        | .error msg => .error msg
        | .ok (st2, _) => review_pending validate now st2 rej (pending.eraseIdx i) i rest
      | .reject =>
          review_pending validate now st (reject_event rej (pending.get ⟨i, h⟩))
            (pending.eraseIdx i) i rest
      | .skip => review_pending validate now st rej pending (i + 1) rest
      | .quit => .ok (st, rej, pending)
    else .ok (st, rej, pending)

/-! ## Batch operations (editor.py _batch_selection_mode / _batch_approve) -/

/-- Python set.add on the model of a set as a duplicate-free list. -/
def pySetAdd (s : List Nat) (x : Nat) : List Nat := if x ∈ s then s else s ++ [x]

/-- The command range N-M (editor.py lines 147-154):
selected.update(range(N - 1, M)). -/
def range_select (s : List Nat) (a b : Nat) : List Nat :=
  (List.range' (a - 1) (b - (a - 1))).foldl pySetAdd s

/-- Stable insertion for descending Nat sort. -/
def insertDescNat (x : Nat) : List Nat → List Nat
  | [] => [x]
  | y :: ys => if y ≤ x then x :: y :: ys else y :: insertDescNat x ys

/-- Python sorted(selected_indices, reverse=True). -/
def sortedDescNat : List Nat → List Nat
  | [] => []
  | x :: xs => insertDescNat x (sortedDescNat xs)

/-- The removal loop of _batch_approve: for each index in descending order
approve the event (through _approve_event, which appends to the published
store on disk) and pop it from the pending list. -/
def batch_approve_loop (validate : Event → Except PyStr Event) (now : PyStr) :
    Stores → List Event → List Nat → Except PyStr (Stores × List Event)
  | st, pending, [] => .ok (st, pending)
  | st, pending, idx :: rest =>
    if h : idx < pending.length then
      match approve_event validate now st (pending.get ⟨idx, h⟩) with
      | .error msg => .error msg
      | .ok (st2, _) => batch_approve_loop validate now st2 (pending.eraseIdx idx) rest
    else .error "list index out of range".toList

/-- _batch_approve (editor.py lines 221-238): events_data is loaded into a
snapshot before the loop; the loop approves each selected index in
descending order; afterwards save_events writes that stale pre-loop
snapshot back over the published store, and the remaining pending list is
saved. -/
def batch_approve (validate : Event → Except PyStr Event) (now : PyStr)
    (st : Stores) (pending : List Event) (selected : List Nat) :
    Except PyStr (Stores × List Event) :=
  let snapshot := st.published
  match batch_approve_loop validate now st pending (sortedDescNat selected) with
  | .error msg => .error msg
  | .ok (st2, pending2) => .ok ({ st2 with published := snapshot }, pending2)

/-! ## Entity resolver coverage (spec section 4.3)

The EntityResolver module is exercised by tests/test_entity_system.py but
its implementation is not among the sources, so the coverage analysis is
modelled from the spec. -/

/-- A partial or full entity payload (field map). -/
abbrev EntityObj := List (PyStr × PyStr)

/-- The three presence-selected ways an event can carry one entity kind:
a registry reference id, a partial override object, a fully embedded
object. -/
structure EntityFields where
  refId : Option PyStr
  overrideObj : Option EntityObj
  embeddedObj : Option EntityObj
deriving DecidableEq

/-- Resolution tiers; missing is the residual bucket for an event carrying
none of the fields for that entity kind. -/
inductive ResolutionTier
  | embedded | override | reference | missing
deriving DecidableEq

/-- Modelled from the spec: exactly one resolution tier applies per event
and entity kind, selected by field presence with priority embedded over
override over reference. -/
def classifyTier (f : EntityFields) : ResolutionTier :=
  if f.embeddedObj.isSome then .embedded
  else if f.overrideObj.isSome then .override
  else if f.refId.isSome then .reference
  else .missing

/-- An event as seen by the coverage analysis: its location fields and its
organizer fields. -/
structure CoverageEvent where
  location : EntityFields
  organizer : EntityFields

/-- Per-tier counters of one entity kind. -/
structure TierCounts where
  reference : Nat
  override : Nat
  embedded : Nat
  missing : Nat
deriving DecidableEq

/-- Number of events of the batch whose given entity kind classifies to the
given tier. -/
def countTier (events : List CoverageEvent) (proj : CoverageEvent → EntityFields)
    (t : ResolutionTier) : Nat :=
  (events.filter (fun e => decide (classifyTier (proj e) = t))).length

/-- Coverage statistics: total and per-tier counts, for locations and
organizers independently. -/
structure CoverageStats where
  total_events : Nat
  locations : TierCounts
  organizers : TierCounts
deriving DecidableEq

/-- Modelled from the spec: analyze_entity_coverage classifies every event
of the batch into exactly one tier per entity kind and reports the per-tier
counts for locations and organizers independently. -/
def analyze_entity_coverage (events : List CoverageEvent) : CoverageStats :=
  { total_events := events.length
  , locations :=
      ⟨countTier events (fun e => e.location) .reference,
       countTier events (fun e => e.location) .override,
       countTier events (fun e => e.location) .embedded,
       countTier events (fun e => e.location) .missing⟩
  , organizers :=
      ⟨countTier events (fun e => e.organizer) .reference,
       countTier events (fun e => e.organizer) .override,
       countTier events (fun e => e.organizer) .embedded,
       countTier events (fun e => e.organizer) .missing⟩ }

/-! ## Concrete fixtures used by the closed evaluations -/

/-- A minimal pending event with a one-character id. -/
def simpleEvent (c : Char) : Event :=
  { id := [c], title := ['t', c], description := [],
    location := ⟨[], none, none⟩, start_time := [],
    source := "test".toList, status := "pending".toList, published_at := none }

/-- Ten-item pending list for the batch scenario. -/
def tenPending : List Event :=
  [simpleEvent 'a', simpleEvent 'b', simpleEvent 'c', simpleEvent 'd', simpleEvent 'e',
   simpleEvent 'f', simpleEvent 'g', simpleEvent 'h', simpleEvent 'i', simpleEvent 'j']

/-- A validation function that accepts every event (all ten events of the
batch scenario are schema-valid). -/
def okValidate : Event → Except PyStr Event := fun e => .ok e

/-- A validation function that rejects exactly the event with id bad, the
way models.validate_event_data raises ValueError on an invalid event. -/
def rejectingValidate : Event → Except PyStr Event := fun e =>
  if e.id = "bad".toList then .error "validation failed".toList else .ok e

/-- An invalid pending event. -/
def badEvent : Event :=
  { id := "bad".toList, title := "Bad Event".toList, description := [],
    location := ⟨[], none, none⟩, start_time := [],
    source := "test".toList, status := "pending".toList, published_at := none }

/-- A valid pending event. -/
def goodEvent : Event :=
  { id := "good".toList, title := "Good Event".toList, description := [],
    location := ⟨[], none, none⟩, start_time := [],
    source := "test".toList, status := "pending".toList, published_at := none }

/-- The rejected spam event of the suppression scenario. -/
def spamEvent : Event :=
  { id := "s1".toList, title := "Spam Party".toList, description := [],
    location := ⟨[], none, none⟩, start_time := [],
    source := "facebook".toList, status := "pending".toList, published_at := none }

/-- A later scrape of the same item, same normalized title and source. -/
def spamCandidate : Event :=
  { id := "s2".toList, title := "spam   party".toList, description := [],
    location := ⟨[], none, none⟩, start_time := [],
    source := "facebook".toList, status := "pending".toList, published_at := none }

/-- A distance function that reports every pair of points as coincident. -/
def distZero : ℚ → ℚ → ℚ → ℚ → ℚ := fun _ _ _ _ => 0

/-- A distance function that reports every pair of points as 5 km apart. -/
def distFive : ℚ → ℚ → ℚ → ℚ → ℚ := fun _ _ _ _ => 5

/-- A candidate with a title, a location name and truthy coordinates. -/
def matchEvent : Event :=
  { id := "m1".toList, title := "jazz night".toList, description := [],
    location := ⟨"club".toList, some 50, some 11⟩, start_time := [],
    source := "test".toList, status := "pending".toList, published_at := none }

/-- A historical event unrelated to matchEvent in title, location name and
position. -/
def otherEvent : Event :=
  { id := "m2".toList, title := "salsa festival".toList, description := [],
    location := ⟨"arena".toList, some 60, some 12⟩, start_time := [],
    source := "test".toList, status := "published".toList, published_at := none }

/-! ## Lemmas about the dedup cache -/

theorem mark_processed_max (c : SourceCache) (k : PyStr) :
    (c.mark_processed k).max_entries = c.max_entries := by
  unfold SourceCache.mark_processed
  split
  · rfl
  · dsimp only
    split <;> rfl

theorem markAll_append (c : SourceCache) (ks : List PyStr) (k : PyStr) :
    c.markAll (ks ++ [k]) = (c.markAll ks).mark_processed k := by
  simp [SourceCache.markAll, List.foldl_append]

theorem markAll_max (c : SourceCache) (ks : List PyStr) :
    (c.markAll ks).max_entries = c.max_entries := by
  induction ks generalizing c with
  | nil => rfl
  | cons k ks ih =>
    show ((c.mark_processed k).markAll ks).max_entries = c.max_entries
    rw [ih, mark_processed_max]

theorem mark_processed_of_mem (c : SourceCache) (k : PyStr) (h : k ∈ c.processed_keys) :
    c.mark_processed k = c := by
  unfold SourceCache.mark_processed
  rw [if_pos h]

theorem mark_processed_length_le (c : SourceCache) (k : PyStr) (h1 : 1 ≤ c.max_entries)
    (h : c.processed_keys.length ≤ c.max_entries) :
    (c.mark_processed k).processed_keys.length ≤ c.max_entries := by
  unfold SourceCache.mark_processed
  split
  · exact h
  · dsimp only
    split
    · rename_i hlong
      unfold pySliceLast
      rw [if_neg (by omega)]
      simp only [List.length_drop, List.length_append, List.length_singleton] at hlong ⊢
      omega
    · rename_i hshort
      simp only [List.length_append, List.length_singleton] at hshort ⊢
      omega

theorem markAll_length_le (c : SourceCache) (ks : List PyStr) (h1 : 1 ≤ c.max_entries)
    (h : c.processed_keys.length ≤ c.max_entries) :
    (c.markAll ks).processed_keys.length ≤ c.max_entries := by
  induction ks generalizing c with
  | nil => exact h
  | cons k ks ih =>
    show ((c.mark_processed k).markAll ks).processed_keys.length ≤ c.max_entries
    have hmax := mark_processed_max c k
    have := ih (c.mark_processed k)
    rw [hmax] at this
    exact this h1 (mark_processed_length_le c k h1 h)

theorem markAll_keys_closed_form (max : Nat) (hmax : 1 ≤ max) (ks : List PyStr)
    (hnd : ks.Nodup) :
    (SourceCache.markAll ⟨max, []⟩ ks).processed_keys = ks.drop (ks.length - max) := by
  revert hnd
  induction ks using List.reverseRecOn with
  | nil => intro _; simp [SourceCache.markAll]
  | append_singleton ks k ih =>
    intro hnd
    have hk : k ∉ ks := by
      intro hmem
      exact (List.disjoint_of_nodup_append hnd) hmem (by simp)
    have ihk := ih hnd.of_append_left
    rw [markAll_append]
    have hmaxst : (SourceCache.markAll ⟨max, []⟩ ks).max_entries = max := markAll_max _ _
    have hknotin : k ∉ (SourceCache.markAll ⟨max, []⟩ ks).processed_keys := by
      rw [ihk]
      intro hmem
      exact hk (List.drop_subset _ _ hmem)
    unfold SourceCache.mark_processed
    rw [if_neg hknotin]
    dsimp only
    rw [hmaxst, ihk]
    rcases Nat.lt_or_ge ks.length max with hlt | hge
    · have h0 : ks.length - max = 0 := by omega
      rw [h0, List.drop_zero]
      rw [if_neg (by simp only [List.length_append, List.length_singleton]; omega)]
      simp only [List.length_append, List.length_singleton]
      have h1 : ks.length + 1 - max = 0 := by omega
      rw [h1, List.drop_zero]
    · have hlendrop : (ks.drop (ks.length - max)).length = max := by
        simp only [List.length_drop]
        omega
      rw [if_pos (by simp only [List.length_append, List.length_singleton, hlendrop]; omega)]
      unfold pySliceLast
      rw [if_neg (by omega)]
      simp only [List.length_append, hlendrop, List.length_singleton]
      have h2 : max + 1 - max = 1 := by omega
      rw [h2]
      rw [List.drop_append_eq_append_drop, List.drop_drop, List.drop_append_eq_append_drop]
      rw [hlendrop]
      have h3 : 1 - max = 0 := by omega
      have h5 : ks.length + 1 - max - ks.length = 0 := by omega
      have h6 : ks.length - max + 1 = ks.length + 1 - max := by omega
      rw [h3, h5, h6]

/-- C2 counterexample: with configured capacity 0 the Python truncation
processed_keys[-0:] keeps the whole list, so one mark_processed call leaves
the cache holding more keys than its configured maximum. -/
theorem mark_processed_zero_capacity_counterexample :
    (SourceCache.mark_processed ⟨0, []⟩ "a".toList).max_entries
      < (SourceCache.mark_processed ⟨0, []⟩ "a".toList).processed_keys.length := by
  decide

/-- C2 (amended to positive capacities): for every capacity of at least one,
any sequence of mark_processed calls keeps the cache at or below capacity;
marking a duplicate-free sequence of keys from the empty cache leaves
exactly the most recently marked min(n, max) keys, evicting the
oldest-inserted first; and re-marking an already-present key never changes
the cache (so it does not refresh the key's insertion position). -/
theorem mark_processed_capacity_bound (max : Nat) (hmax : 1 ≤ max) :
    (∀ ks : List PyStr,
        (SourceCache.markAll ⟨max, []⟩ ks).processed_keys.length ≤ max)
  ∧ (∀ ks : List PyStr, ks.Nodup →
        (SourceCache.markAll ⟨max, []⟩ ks).processed_keys = ks.drop (ks.length - max)
        ∧ (SourceCache.markAll ⟨max, []⟩ ks).processed_keys.length = min ks.length max)
  ∧ (∀ (c : SourceCache) (k : PyStr), k ∈ c.processed_keys → c.mark_processed k = c) := by
  refine ⟨?_, ?_, mark_processed_of_mem⟩
  · intro ks
    exact markAll_length_le ⟨max, []⟩ ks hmax (by simp)
  · intro ks hnd
    have h := markAll_keys_closed_form max hmax ks hnd
    refine ⟨h, ?_⟩
    rw [h]
    simp only [List.length_drop]
    omega

theorem mark_processed_capacity_bound_witness :
    (SourceCache.markAll ⟨2, []⟩ ["a".toList, "b".toList, "c".toList]).processed_keys
      = ["b".toList, "c".toList] := by
  have h := ((mark_processed_capacity_bound 2 (by norm_num)).2.1
    ["a".toList, "b".toList, "c".toList] (by decide)).1
  simpa using h

/-! ## SourceCache.load on missing, corrupt and wrong-shape files -/

/-- C8: load() treats a missing file and an unparsable file as the empty
cache, but a file whose contents parse to JSON of the wrong shape (here a
top-level array) raises an uncaught AttributeError from data.get, because
only json.JSONDecodeError and OSError are caught.  A parsed dict without
the processed_keys key falls back to the empty list. -/
theorem source_cache_load_shape_eval :
    sourceCacheLoad none (Json.arr []) = .ok (Json.arr [])
  ∧ sourceCacheLoad (some (.error ())) (Json.arr []) = .ok (Json.arr [])
  ∧ sourceCacheLoad (some (.ok (Json.obj []))) (Json.arr []) = .ok (Json.arr [])
  ∧ sourceCacheLoad (some (.ok (Json.arr []))) (Json.arr []) = .error () := by
  exact ⟨rfl, rfl, rfl, rfl⟩

/-! ## Identity generator -/

/-- C1: generating twice with identical arguments gives identical ids;
titles with the same normalization (differing only by casing, whitespace or
punctuation) give the same id under the same source and date; titles with
different normalizations give different ids. -/
theorem generate_stable_event_id_spec :
    (∀ (s t : PyStr) (d : Option PyDate),
        generate_stable_event_id s t d = generate_stable_event_id s t d)
  ∧ (∀ (s t1 t2 : PyStr) (d : Option PyDate), t1 ≠ [] → t2 ≠ [] →
        normalize_title t1 = normalize_title t2 →
        generate_stable_event_id s t1 d = generate_stable_event_id s t2 d)
  ∧ (∀ (s t1 t2 : PyStr) (d : Option PyDate), t1 ≠ [] → t2 ≠ [] →
        normalize_title t1 ≠ normalize_title t2 →
        generate_stable_event_id s t1 d ≠ generate_stable_event_id s t2 d) := by
  refine ⟨fun _ _ _ => rfl, ?_, ?_⟩
  · intro s t1 t2 d h1 h2 hn
    simp only [generate_stable_event_id, if_neg h1, if_neg h2, hn]
  · intro s t1 t2 d h1 h2 hn heq
    simp only [generate_stable_event_id, if_neg h1, if_neg h2, Except.ok.injEq,
      StableEventId.mk.injEq] at heq
    exact hn heq.2.1

theorem generate_stable_event_id_spec_witness :
    generate_stable_event_id "vhs".toList "Jazz Night!".toList none
      = generate_stable_event_id "vhs".toList "  jazz   NIGHT".toList none
  ∧ generate_stable_event_id "vhs".toList "Jazz Night!".toList none
      ≠ generate_stable_event_id "vhs".toList "Cooking Class".toList none := by
  constructor
  · exact generate_stable_event_id_spec.2.1 "vhs".toList _ _ none
      (by decide) (by decide) (by decide)
  · exact generate_stable_event_id_spec.2.2 "vhs".toList _ _ none
      (by decide) (by decide) (by decide)

/-! ## Lemmas about the similarity matcher -/

theorem pySplitWs_nil : pySplitWs [] = [] := by
  simp [pySplitWs, List.splitOnP_nil]

theorem pyIn_refl (x : PyStr) : pyIn x x = true := by
  simp [pyIn, List.infix_refl]

theorem pyLower_ne_nil {s : PyStr} (h : s ≠ []) : pyLower s ≠ [] := by
  intro hc
  exact h (by simpa [pyLower] using hc)

theorem titleScore_self (t : PyStr) (h : pySplitWs t ≠ []) : titleScore t t = 6 / 10 := by
  have ht : t ≠ [] := by
    rintro rfl
    exact h pySplitWs_nil
  unfold titleScore
  rw [if_pos ⟨ht, ht⟩]
  have hd : (pySplitWs t).dedup ≠ [] := by
    intro hc
    exact h ((List.dedup_eq_nil _).mp hc)
  rw [if_pos ⟨hd, hd⟩]
  have hfil : (pySplitWs t).dedup.filter (fun w => decide (w ∈ (pySplitWs t).dedup))
      = (pySplitWs t).dedup := by
    apply List.filter_eq_self.mpr
    intro a ha
    simpa using ha
  rw [hfil, max_self]
  have hL : ((pySplitWs t).dedup.length : ℚ) ≠ 0 := by
    have : (pySplitWs t).dedup.length ≠ 0 := by
      simpa [List.length_eq_zero] using hd
    exact_mod_cast this
  rw [div_self hL, one_mul]

theorem titleScore_disjoint (et ht : PyStr)
    (hdisj : ∀ w ∈ pySplitWs et, w ∉ pySplitWs ht) : titleScore et ht = 0 := by
  simp only [titleScore]
  split
  · split
    · have hfil : (pySplitWs et).dedup.filter (fun w => decide (w ∈ (pySplitWs ht).dedup))
          = [] := by
        apply List.filter_eq_nil_iff.mpr
        intro a ha
        have ha2 := List.mem_dedup.mp ha
        simp only [decide_eq_true_eq, List.mem_dedup]
        exact hdisj a ha2
      rw [hfil]
      simp
    · rfl
  · rfl

theorem locationScore_self (x : PyStr) (h : x ≠ []) : locationScore x x = 3 / 10 := by
  unfold locationScore
  rw [if_pos ⟨h, h⟩, if_pos (by rw [pyIn_refl]; rfl)]

theorem locationScore_zero (el hl : PyStr) (h1 : pyIn el hl = false)
    (h2 : pyIn hl el = false) (h3 : ∀ w ∈ pySplitWs el, pyIn w hl = false) :
    locationScore el hl = 0 := by
  unfold locationScore
  split
  · rw [h1, h2]
    simp only [Bool.or_self, Bool.false_eq_true, if_false]
    rw [if_neg (by
      intro hc
      rw [List.any_eq_true] at hc
      obtain ⟨w, hw, hpy⟩ := hc
      rw [h3 w hw] at hpy
      cases hpy)]
  · rfl

theorem proximityScore_none (dist : ℚ → ℚ → ℚ → ℚ → ℚ)
    (elat elon hlat hlon : Option ℚ)
    (h : elat = none ∨ elon = none ∨ hlat = none ∨ hlon = none) :
    proximityScore dist elat elon hlat hlon = 0 := by
  rcases elat with _ | a <;> rcases elon with _ | b <;>
    rcases hlat with _ | c <;> rcases hlon with _ | d <;>
    simp_all [proximityScore]

theorem proximityScore_some (dist : ℚ → ℚ → ℚ → ℚ → ℚ) (a b c d : ℚ) :
    proximityScore dist (some a) (some b) (some c) (some d)
      = if a ≠ 0 ∧ b ≠ 0 ∧ c ≠ 0 ∧ d ≠ 0 then
          (if dist a b c d < 1 then 1 / 10 else 0) else 0 := rfl

theorem proximityScore_far (dist : ℚ → ℚ → ℚ → ℚ → ℚ) (a b c d : ℚ)
    (h : 1 ≤ dist a b c d) :
    proximityScore dist (some a) (some b) (some c) (some d) = 0 := by
  rw [proximityScore_some]
  by_cases htr : a ≠ 0 ∧ b ≠ 0 ∧ c ≠ 0 ∧ d ≠ 0
  · rw [if_pos htr, if_neg (not_lt.mpr h)]
  · rw [if_neg htr]

theorem mem_insertDescByScore (x a : SimilarityResult) (l : List SimilarityResult) :
    a ∈ insertDescByScore x l ↔ a = x ∨ a ∈ l := by
  induction l with
  | nil => simp [insertDescByScore]
  | cons y ys ih =>
    unfold insertDescByScore
    split
    · simp
    · simp only [List.mem_cons, ih]
      tauto

theorem mem_sortDescByScore (a : SimilarityResult) (l : List SimilarityResult) :
    a ∈ sortDescByScore l ↔ a ∈ l := by
  induction l with
  | nil => simp [sortDescByScore]
  | cons y ys ih =>
    unfold sortDescByScore
    rw [mem_insertDescByScore, ih]
    simp

/-- Every piece produced by splitOnP is a contiguous substring of the input,
and the first piece is a prefix. -/
theorem splitOnP_pieces_contiguous (p : Char → Bool) :
    ∀ l : List Char,
      (∀ x ∈ List.splitOnP p l, x <:+: l)
      ∧ (∀ h t, List.splitOnP p l = h :: t → h <+: l) := by
  intro l
  induction l with
  | nil =>
    constructor
    · intro x hx
      rw [List.splitOnP_nil] at hx
      simp at hx
      simp [hx]
    · intro h t hht
      rw [List.splitOnP_nil] at hht
      cases hht
      simp
  | cons a l ih =>
    by_cases hp : p a
    · constructor
      · intro x hx
        rw [List.splitOnP_cons, if_pos hp] at hx
        rcases List.mem_cons.mp hx with rfl | hx2
        · simp
        · exact List.infix_cons (ih.1 x hx2)
      · intro h t hht
        rw [List.splitOnP_cons, if_pos hp] at hht
        cases hht
        simp
    · rcases hsp : List.splitOnP p l with _ | ⟨h0, t0⟩
      · exact absurd hsp (List.splitOnP_ne_nil p l)
      · have hpre : h0 <+: l := ih.2 h0 t0 hsp
        constructor
        · intro x hx
          rw [List.splitOnP_cons, if_neg hp, hsp] at hx
          simp only [List.modifyHead_cons, List.mem_cons] at hx
          rcases hx with rfl | hx2
          · obtain ⟨t2, rfl⟩ := hpre
            exact ((a :: h0).prefix_append t2).isInfix
          · exact List.infix_cons (ih.1 x (by rw [hsp]; exact List.mem_cons_of_mem _ hx2))
        · intro h t hht
          rw [List.splitOnP_cons, if_neg hp, hsp] at hht
          simp only [List.modifyHead_cons] at hht
          cases hht
          obtain ⟨t2, rfl⟩ := hpre
          exact (a :: h0).prefix_append t2

theorem pyIn_of_mem_pySplitWs (w s : PyStr) (h : w ∈ pySplitWs s) : pyIn w s = true := by
  have hmem : w ∈ List.splitOnP Char.isWhitespace s := (List.mem_filter.mp h).1
  have hinf := (splitOnP_pieces_contiguous Char.isWhitespace s).1 w hmem
  simpa [pyIn] using hinf

/-! ## Haversine distance at coincident coordinates -/

theorem calculate_distance_self (lat lon : ℝ) : calculate_distance lat lon lat lon = 0 := by
  unfold calculate_distance
  simp only [sub_self, zero_div, Real.sin_zero, ne_eq, OfNat.ofNat_ne_zero,
    not_false_eq_true, zero_pow, mul_zero, add_zero, Real.sqrt_zero, sub_zero,
    Real.sqrt_one]
  rw [atan2, if_pos one_pos]
  simp [Real.arctan_zero]

/-! ## Claim C6: composite score extremes and the result threshold -/

/-- C6: a pair with identical title (with at least one word), identical
non-empty location name and coincident truthy coordinates scores exactly 1
(0.6 + 0.3 + 0.1); a pair with disjoint title words, unrelated location
names and distant coordinates scores 0 and is excluded from the returned
results; and every returned result has composite score strictly above
0.3. -/
theorem find_similar_score_spec :
    (∀ (dist : ℚ → ℚ → ℚ → ℚ → ℚ) (e h : Event) (la lo : ℚ),
        e.title = h.title → pySplitWs (pyLower e.title) ≠ [] →
        e.location.name = h.location.name → e.location.name ≠ [] →
        e.location.lat = some la → e.location.lon = some lo →
        h.location.lat = some la → h.location.lon = some lo →
        la ≠ 0 → lo ≠ 0 → dist la lo la lo < 1 →
        compositeScore dist e h = 1)
  ∧ (∀ (dist : ℚ → ℚ → ℚ → ℚ → ℚ) (e h : Event),
        (∀ w ∈ pySplitWs (pyLower e.title), w ∉ pySplitWs (pyLower h.title)) →
        pyIn (pyLower e.location.name) (pyLower h.location.name) = false →
        pyIn (pyLower h.location.name) (pyLower e.location.name) = false →
        (∀ w ∈ pySplitWs (pyLower e.location.name),
            pyIn w (pyLower h.location.name) = false) →
        (∀ a b c d : ℚ, e.location.lat = some a → e.location.lon = some b →
            h.location.lat = some c → h.location.lon = some d → 1 ≤ dist a b c d) →
        compositeScore dist e h = 0 ∧ find_similar_events dist e [h] = [])
  ∧ (∀ (dist : ℚ → ℚ → ℚ → ℚ → ℚ) (e : Event) (hist : List Event)
        (r : SimilarityResult), r ∈ find_similar_events dist e hist →
        3 / 10 < r.score) := by
  refine ⟨?_, ?_, ?_⟩
  · intro dist e h la lo htit hw hloc hlocne helat helon hhlat hhlon hla hlo hdist
    unfold compositeScore
    rw [← htit, ← hloc, helat, helon, hhlat, hhlon]
    rw [titleScore_self _ hw, locationScore_self _ (pyLower_ne_nil hlocne)]
    rw [proximityScore_some, if_pos ⟨hla, hlo, hla, hlo⟩, if_pos hdist]
    norm_num
  · intro dist e h htit h1 h2 h3 hfar
    have hcomp : compositeScore dist e h = 0 := by
      unfold compositeScore
      rw [titleScore_disjoint _ _ htit, locationScore_zero _ _ h1 h2 h3]
      have hprox : proximityScore dist e.location.lat e.location.lon
          h.location.lat h.location.lon = 0 := by
        rcases hea : e.location.lat with _ | a
        · exact proximityScore_none dist _ _ _ _ (Or.inl rfl)
        rcases heb : e.location.lon with _ | b
        · exact proximityScore_none dist _ _ _ _ (Or.inr (Or.inl rfl))
        rcases hhc : h.location.lat with _ | c
        · exact proximityScore_none dist _ _ _ _ (Or.inr (Or.inr (Or.inl rfl)))
        rcases hhd : h.location.lon with _ | d
        · exact proximityScore_none dist _ _ _ _ (Or.inr (Or.inr (Or.inr rfl)))
        exact proximityScore_far dist a b c d (hfar a b c d hea heb hhc hhd)
      rw [hprox]
      norm_num
    refine ⟨hcomp, ?_⟩
    unfold find_similar_events
    rw [List.filterMap_cons]
    rw [hcomp]
    norm_num
    rfl
  · intro dist e hist r hmem
    unfold find_similar_events at hmem
    rw [mem_sortDescByScore] at hmem
    obtain ⟨h, _, hf⟩ := List.mem_filterMap.mp hmem
    by_cases hc : 3 / 10 < compositeScore dist e h
    · rw [if_pos hc] at hf
      cases hf
      exact hc
    · rw [if_neg hc] at hf
      cases hf

theorem find_similar_score_spec_witness :
    compositeScore distZero matchEvent matchEvent = 1
  ∧ compositeScore distFive matchEvent otherEvent = 0
  ∧ find_similar_events distFive matchEvent [otherEvent] = []
  ∧ 3 / 10 < (⟨matchEvent, 1⟩ : SimilarityResult).score := by
  have h1 := find_similar_score_spec.1 distZero matchEvent matchEvent 50 11
    rfl (by decide) rfl (by decide) rfl rfl rfl rfl
    (by norm_num) (by norm_num) (by norm_num [distZero])
  have h2 := find_similar_score_spec.2.1 distFive matchEvent otherEvent
    (by decide) (by decide) (by decide) (by decide)
    (by intro a b c d ha hb hc hd; norm_num [distFive])
  have hsome : (if 3 / 10 < compositeScore distZero matchEvent matchEvent then
      some (⟨matchEvent, compositeScore distZero matchEvent matchEvent⟩ : SimilarityResult)
      else none) = some ⟨matchEvent, 1⟩ := by
    rw [if_pos (by rw [h1]; norm_num)]
    rw [h1]
  have hlist : find_similar_events distZero matchEvent [matchEvent] = [⟨matchEvent, 1⟩] := by
    unfold find_similar_events
    simp only [List.filterMap_cons, List.filterMap_nil]
    rw [hsome]
    rfl
  have h3 := find_similar_score_spec.2.2 distZero matchEvent [matchEvent]
    ⟨matchEvent, 1⟩ (by rw [hlist]; simp)
  exact ⟨h1, h2.1, h2.2, h3⟩

/-! ## Claim C7: the location-name half weight -/

/-- C7 counterexample: the lowercased names hall x and townhall share no
word and neither contains the other, yet the component is 0.15, because the
code tests each candidate word as a substring of the historical name. -/
theorem location_half_weight_counterexample :
    locationScore "hall x".toList "townhall".toList = 3 / 20
  ∧ (∀ w ∈ pySplitWs "hall x".toList, w ∉ pySplitWs "townhall".toList)
  ∧ pyIn "hall x".toList "townhall".toList = false
  ∧ pyIn "townhall".toList "hall x".toList = false := by
  refine ⟨?_, by decide, by decide, by decide⟩
  unfold locationScore
  rw [if_pos (by decide), if_neg (by decide), if_pos (by decide)]

/-- C7 (amended): for non-empty names the component is 0.3 exactly when
either name contains the other as a substring; otherwise it is 0.15 exactly
when some whitespace word of the candidate name occurs as a substring of
the historical name (a shared word is a special case, but no shared word is
required); and 0 otherwise. -/
theorem location_score_characterization (el hl : PyStr) (hel : el ≠ []) (hhl : hl ≠ []) :
    ((pyIn el hl || pyIn hl el) = true → locationScore el hl = 3 / 10)
  ∧ ((pyIn el hl || pyIn hl el) = false →
        (pySplitWs el).any (fun w => pyIn w hl) = true → locationScore el hl = 3 / 20)
  ∧ ((pyIn el hl || pyIn hl el) = false →
        (pySplitWs el).any (fun w => pyIn w hl) = false → locationScore el hl = 0)
  ∧ (∀ w, w ∈ pySplitWs el → w ∈ pySplitWs hl → 3 / 20 ≤ locationScore el hl) := by
  refine ⟨?_, ?_, ?_, ?_⟩
  · intro hc
    unfold locationScore
    rw [if_pos ⟨hhl, hel⟩, if_pos hc]
  · intro hc hany
    unfold locationScore
    rw [if_pos ⟨hhl, hel⟩, if_neg (by rw [hc]; simp), if_pos hany]
  · intro hc hany
    unfold locationScore
    rw [if_pos ⟨hhl, hel⟩, if_neg (by rw [hc]; simp), if_neg (by rw [hany]; simp)]
  · intro w hwel hwhl
    have hany : (pySplitWs el).any (fun w => pyIn w hl) = true := by
      rw [List.any_eq_true]
      exact ⟨w, hwel, pyIn_of_mem_pySplitWs w hl hwhl⟩
    unfold locationScore
    rw [if_pos ⟨hhl, hel⟩]
    by_cases hc : (pyIn el hl || pyIn hl el) = true
    · rw [if_pos hc]
      norm_num
    · rw [if_neg hc, if_pos hany]

theorem location_score_characterization_witness :
    locationScore "hall x".toList "townhall".toList = 3 / 20 := by
  exact (location_score_characterization "hall x".toList "townhall".toList
    (by decide) (by decide)).2.1 (by decide) (by decide)

/-! ## Claim C10: the truthiness gate on the proximity component -/

/-- C10: the proximity component is non-zero only when all four coordinate
values are present and non-zero and the reported distance is below 1 km
(in which case it is exactly 0.1); a zero coordinate, as on the equator or
prime meridian, or an absent one, forces the component to 0 regardless of
the distance function. -/
theorem proximity_score_truthiness :
    (∀ (dist : ℚ → ℚ → ℚ → ℚ → ℚ) (elat elon hlat hlon : Option ℚ),
        proximityScore dist elat elon hlat hlon ≠ 0 →
        ∃ a b c d : ℚ, elat = some a ∧ elon = some b ∧ hlat = some c ∧ hlon = some d ∧
          a ≠ 0 ∧ b ≠ 0 ∧ c ≠ 0 ∧ d ≠ 0 ∧ dist a b c d < 1 ∧
          proximityScore dist elat elon hlat hlon = 1 / 10)
  ∧ (∀ (dist : ℚ → ℚ → ℚ → ℚ → ℚ) (a b c d : ℚ), a = 0 ∨ b = 0 ∨ c = 0 ∨ d = 0 →
        proximityScore dist (some a) (some b) (some c) (some d) = 0)
  ∧ (∀ (dist : ℚ → ℚ → ℚ → ℚ → ℚ) (elat elon hlat hlon : Option ℚ),
        elat = none ∨ elon = none ∨ hlat = none ∨ hlon = none →
        proximityScore dist elat elon hlat hlon = 0)
  ∧ (∀ (dist : ℚ → ℚ → ℚ → ℚ → ℚ) (a b c d : ℚ),
        a ≠ 0 → b ≠ 0 → c ≠ 0 → d ≠ 0 → dist a b c d < 1 →
        proximityScore dist (some a) (some b) (some c) (some d) = 1 / 10) := by
  refine ⟨?_, ?_, proximityScore_none, ?_⟩
  · intro dist elat elon hlat hlon hne
    rcases elat with _ | a
    · exact absurd (proximityScore_none dist _ _ _ _ (Or.inl rfl)) hne
    rcases elon with _ | b
    · exact absurd (proximityScore_none dist _ _ _ _ (Or.inr (Or.inl rfl))) hne
    rcases hlat with _ | c
    · exact absurd (proximityScore_none dist _ _ _ _ (Or.inr (Or.inr (Or.inl rfl)))) hne
    rcases hlon with _ | d
    · exact absurd (proximityScore_none dist _ _ _ _ (Or.inr (Or.inr (Or.inr rfl)))) hne
    rw [proximityScore_some] at hne ⊢
    by_cases htr : a ≠ 0 ∧ b ≠ 0 ∧ c ≠ 0 ∧ d ≠ 0
    · rw [if_pos htr] at hne ⊢
      by_cases hd : dist a b c d < 1
      · exact ⟨a, b, c, d, rfl, rfl, rfl, rfl, htr.1, htr.2.1, htr.2.2.1, htr.2.2.2,
          hd, by rw [if_pos hd]⟩
      · rw [if_neg hd] at hne
        exact absurd rfl hne
    · rw [if_neg htr] at hne
      exact absurd rfl hne
  · intro dist a b c d h
    rw [proximityScore_some]
    rw [if_neg (by tauto)]
  · intro dist a b c d ha hb hc hd hlt
    rw [proximityScore_some]
    rw [if_pos ⟨ha, hb, hc, hd⟩, if_pos hlt]

theorem proximity_score_truthiness_witness :
    proximityScore distZero (some 0) (some 50) (some 0) (some 50) = 0
  ∧ proximityScore distZero (some 50) (some 11) (some 50) (some 11) = 1 / 10 := by
  constructor
  · exact proximity_score_truthiness.2.1 distZero 0 50 0 50 (Or.inl rfl)
  · exact proximity_score_truthiness.2.2.2 distZero 50 11 50 11
      (by norm_num) (by norm_num) (by norm_num) (by norm_num) (by norm_num [distZero])

/-! ## Claim C3: a validation failure during approve -/

/-- C3: validation runs first and, on failure, surfaces the original error
with no store writes and the event still pending (first conjunct).  But the
error propagates out of the review loop uncaught, so the loop aborts
instead of continuing with the remaining items: with a pending list of an
invalid and a valid event, approving both leaves the whole session an
error and the second event is never reviewed (second conjunct); the valid
event is only reachable by skipping the invalid one (third conjunct). -/
theorem approve_validation_abort_eval :
    approve_event rejectingValidate "T".toList ⟨[], []⟩ badEvent
      = .error "validation failed".toList
  ∧ review_pending rejectingValidate "T".toList ⟨[], []⟩ [] [badEvent, goodEvent] 0
      [.approve, .approve] = .error "validation failed".toList
  ∧ review_pending rejectingValidate "T".toList ⟨[], []⟩ [] [badEvent, goodEvent] 0
      [.skip, .approve]
      = .ok (⟨[publishStamp "T".toList goodEvent], [publishStamp "T".toList goodEvent]⟩,
          [], [badEvent]) := by
  refine ⟨rfl, rfl, rfl⟩

/-! ## Claim C4: batch range 1-5 plus approve -/

/-- C4: on the ten-item pending list the command range 1-5 selects indices
0 to 4; the batch approval pops items one to five (their stamped copies are
written to the per-event backups in descending order) and leaves items six
to ten pending, but the final save_events writes the stale pre-loop
snapshot of the published store, so the published store ends without any
of the five approved events (here: still empty). -/
theorem batch_approve_stale_write_eval :
    range_select [] 1 5 = [0, 1, 2, 3, 4]
  ∧ batch_approve okValidate "T".toList ⟨[], []⟩ tenPending (range_select [] 1 5)
      = .ok (⟨[],
          [publishStamp "T".toList (simpleEvent 'e'), publishStamp "T".toList (simpleEvent 'd'),
           publishStamp "T".toList (simpleEvent 'c'), publishStamp "T".toList (simpleEvent 'b'),
           publishStamp "T".toList (simpleEvent 'a')]⟩,
          [simpleEvent 'f', simpleEvent 'g', simpleEvent 'h', simpleEvent 'i',
           simpleEvent 'j']) := by
  refine ⟨rfl, rfl⟩

/-! ## Claim C5: rejection suppression -/

/-- C5: rejecting an event with non-empty title and source writes the
normalized (title, source) rejection record; as long as a store contains
that record, every later candidate with matching normalized title and
source is suppressed before reaching the pending store; and once the
record is explicitly cleared, a matching candidate is inserted again. -/
theorem rejection_suppression (store : List RejKey) (e : Event)
    (ht : e.title ≠ []) (hs : e.source ≠ []) :
    (⟨normalizeKey e.title, normalizeKey e.source⟩ : RejKey) ∈ reject_event store e
  ∧ (∀ (store2 : List RejKey) (pending : List Event) (c : Event),
        (⟨normalizeKey e.title, normalizeKey e.source⟩ : RejKey) ∈ store2 →
        normalizeKey c.title = normalizeKey e.title →
        normalizeKey c.source = normalizeKey e.source →
        insert_candidate store2 pending c = pending)
  ∧ (∀ (pending : List Event) (c : Event),
        normalizeKey c.title = normalizeKey e.title →
        normalizeKey c.source = normalizeKey e.source →
        insert_candidate (clear_rejected (reject_event [] e) e.title e.source) pending c
          = pending ++ [c]) := by
  refine ⟨?_, ?_, ?_⟩
  · unfold reject_event
    rw [if_pos ⟨ht, hs⟩]
    unfold add_rejected_event
    simp
  · intro store2 pending c hmem hct hcs
    unfold insert_candidate
    have hrej : is_rejected store2 c.title c.source = true := by
      unfold is_rejected
      rw [hct, hcs]
      exact decide_eq_true hmem
    rw [if_pos hrej]
  · intro pending c hct hcs
    have hclear : clear_rejected (reject_event [] e) e.title e.source = [] := by
      unfold reject_event
      rw [if_pos ⟨ht, hs⟩]
      unfold add_rejected_event clear_rejected
      simp
    rw [hclear]
    unfold insert_candidate
    rw [if_neg (by unfold is_rejected; simp)]

theorem rejection_suppression_witness :
    insert_candidate (reject_event [] spamEvent) [] spamCandidate = [] := by
  have h := rejection_suppression [] spamEvent (by decide) (by decide)
  exact h.2.1 (reject_event [] spamEvent) [] spamCandidate h.1 (by decide) (by decide)

/-! ## Claim C9: entity coverage analysis -/

theorem countTier_cons (e : CoverageEvent) (es : List CoverageEvent)
    (proj : CoverageEvent → EntityFields) (t : ResolutionTier) :
    countTier (e :: es) proj t
      = (if classifyTier (proj e) = t then 1 else 0) + countTier es proj t := by
  unfold countTier
  rw [List.filter_cons]
  by_cases h : classifyTier (proj e) = t
  · simp [h]
    omega
  · simp [h]

theorem countTier_partition (events : List CoverageEvent)
    (proj : CoverageEvent → EntityFields) :
    countTier events proj .reference + countTier events proj .override
      + countTier events proj .embedded + countTier events proj .missing
      = events.length := by
  induction events with
  | nil => rfl
  | cons e es ih =>
    rw [countTier_cons, countTier_cons, countTier_cons, countTier_cons, List.length_cons]
    rcases hcl : classifyTier (proj e) with _ | _ | _ | _ <;> simp [hcl] <;> omega

/-- C9: tier classification is a total function, so every event is assigned
exactly one resolution tier per entity kind, and the per-tier counts
reported by analyze_entity_coverage, independently for locations and for
organizers, sum to the batch size. -/
theorem entity_coverage_partition (events : List CoverageEvent) :
    (∀ f : EntityFields, ∃! t : ResolutionTier, classifyTier f = t)
  ∧ (analyze_entity_coverage events).locations.reference
      + (analyze_entity_coverage events).locations.override
      + (analyze_entity_coverage events).locations.embedded
      + (analyze_entity_coverage events).locations.missing
      = (analyze_entity_coverage events).total_events
  ∧ (analyze_entity_coverage events).organizers.reference
      + (analyze_entity_coverage events).organizers.override
      + (analyze_entity_coverage events).organizers.embedded
      + (analyze_entity_coverage events).organizers.missing
      = (analyze_entity_coverage events).total_events := by
  refine ⟨fun f => ⟨classifyTier f, rfl, fun y hy => hy.symm⟩, ?_, ?_⟩
  · simpa [analyze_entity_coverage] using countTier_partition events (fun e => e.location)
  · simpa [analyze_entity_coverage] using countTier_partition events (fun e => e.organizer)

end Krwl
